import Mathlib

/-!
Shallow embedding of `mcb.pyw` (the multiclipboard utility, authoritative
revision `src/unnamed/part_001`).

The shelve store is modelled as an association list `Store` with dict
semantics: `shelfGet` is `filename[key]` (`none` models a raised `KeyError`),
`shelfSet` is `filename[key] = content` (overwrite in place or append),
`shelfPop` is `filename.pop(key)`.  A blocking `input()` that the operator can
interrupt with CTRL-C is an `InputEv` (a line of text, or a
`KeyboardInterrupt`).  Functions whose Python body can terminate with an
uncaught exception return `Except`; the `error` case is the crash.  `print`
side effects are not tracked except where a claim depends on which message is
selected (the purge report in `main`), or on whether the overwrite warning is
shown (`add` returns that flag).
-/

namespace Mcb

/-- A shelf: a mapping from string keys to string contents (one entry per
key in any store produced by the dict operations). -/
abbrev Store := List (String × String)

/-- Outcome of one blocking `input()` call: the operator either supplies a
line of text or interrupts with CTRL-C (`KeyboardInterrupt`). -/
inductive InputEv
  | line (s : String)
  | interrupt
deriving DecidableEq, Repr

/-- Python `filename[key]` on a shelf: the stored content, or `none` for a
raised `KeyError`. -/
def shelfGet : Store → String → Option String
  | [], _ => none
  | p :: t, k => if p.1 == k then some p.2 else shelfGet t k

/-- Python `filename[key] = content`: overwrite the entry for `key` if
present, otherwise insert a new entry. -/
def shelfSet : Store → String → String → Store
  | [], k, c => [(k, c)]
  | p :: t, k, c => if p.1 == k then (k, c) :: t else p :: shelfSet t k c

/-- Python `filename.pop(key)`: remove the entry for `key`, `none` for a
raised `KeyError` when the key is absent. -/
def shelfPop : Store → String → Option Store
  | [], _ => none
  | p :: t, k =>
    if p.1 == k then some t
    else (shelfPop t k).map (fun t' => p :: t')

/-- Python `filename.keys()` as materialised by the dbm backend: the list of
keys currently in the shelf. -/
def shelfKeys (sh : Store) : List String := sh.map Prod.fst

/-- `add(filename, content, key)`, lines 56-87.  The overwrite warning
(lines 72-76) is printed exactly when the key already exists; the
`try: input(); filename[key] = content` block runs in every case, so a
`KeyboardInterrupt` aborts with `rc = False` and no mutation even for a new
key.  Result: `(rc, shelf after the call, whether the warning was printed)`. -/
def add (sh : Store) (content key : String) (ev : InputEv) :
    Bool × Store × Bool :=
  let promptShown := (shelfGet sh key).isSome
  match ev with
  | InputEv.line _ => (true, shelfSet sh key content, promptShown)
  | InputEv.interrupt => (false, sh, promptShown)

/-- `copy(filename, key)`, lines 90-120.  Line 107 evaluates `filename[key]`
before the `try` block, so a missing key raises an uncaught `KeyError`:
modelled as `Except.error clip` (crash, clipboard unchanged).  Inside the
`try`, CTRL-C yields `rc = 2`; otherwise `pyperclip.copy(filename[key])`
re-reads the key (the `except KeyError: rc = 1` handler only guards this
second lookup, which cannot fail once the first one succeeded).  The `ok`
payload is `(rc, clipboard after the call)`. -/
def copy (sh : Store) (key : String) (ev : InputEv) (clip : Option String) :
    Except (Option String) (Nat × Option String) :=
  match shelfGet sh key with
  | none => Except.error clip
  | some _ =>
    match ev with
    | InputEv.interrupt => Except.ok (2, clip)
    | InputEv.line _ =>
      match shelfGet sh key with
      | some content => Except.ok (0, some content)
      | none => Except.ok (1, clip)

/-- `confirm_delete(filename, key)`, lines 123-140: read one line; the answer
is `confirm[0].lower() == 'y'`.  On a blank line, `confirm[0]` raises an
uncaught `IndexError`: modelled as `Except.error ()`. -/
def confirm_delete (ans : String) : Except Unit Bool :=
  match ans.data with
  | [] => Except.error ()
  | c :: _ => Except.ok (c.toLower == 'y')

/-- `delete_key(filename, key)`, lines 143-166: `filename.pop(key)`; a
`KeyError` is caught and turned into `rc = 1` with the shelf unchanged. -/
def delete_key (sh : Store) (k : String) : Nat × Store :=
  match shelfPop sh k with
  | some sh' => (0, sh')
  | none => (1, sh)

/-- `get_interactive(filename)`, lines 169-211, after the content and key
lines have been read.  When the key exists, the overwrite answer is read;
a blank answer makes `overwrite[0]` raise an uncaught `IndexError`; a first
character `n`/`N` exits with no mutation; any other answer overwrites.  When
the key is new, the confirmation `input()` is gated by CTRL-C: an interrupt
aborts with no mutation, a completed line performs the write. -/
def get_interactive (sh : Store) (content key ans : String) (ev : InputEv) :
    Except Unit Store :=
  if (shelfGet sh key).isSome then
    match ans.data with
    | [] => Except.error ()
    | c :: _ =>
      if c.toLower = 'n' then Except.ok sh
      else Except.ok (shelfSet sh key content)
  else
    match ev with
    | InputEv.line _ => Except.ok (shelfSet sh key content)
    | InputEv.interrupt => Except.ok sh

/-- The purge loop, lines 252-254: pop each key of the snapshot taken by
`filename.keys()`, counting the pops.  `pop` on a missing key would raise
(`error`). -/
def purgeLoop : List String → Store → Nat → Except Unit (Nat × Store)
  | [], sh, rc => Except.ok (rc, sh)
  | k :: ks, sh, rc =>
    match shelfPop sh k with
    | some sh' => purgeLoop ks sh' (rc + 1)
    | none => Except.error ()

/-- `purge(filename)`, lines 231-258: read the confirmation line; a blank
line makes `confirm[0]` raise an uncaught `IndexError`; a first character
`y`/`Y` runs the purge loop; anything else prints the abort message and
returns `rc = 0` with the shelf unchanged. -/
def purge (sh : Store) (ans : String) : Except Unit (Nat × Store) :=
  match ans.data with
  | [] => Except.error ()
  | c :: _ =>
    if c.toLower = 'y' then purgeLoop (shelfKeys sh) sh 0
    else Except.ok (0, sh)

/-- Which report `main` prints after `purge`, lines 343-350. -/
inductive PurgeMsg
  | nothingToDo
  | success (n : Nat)
deriving DecidableEq, Repr

/-- The `rc` test of `main`'s purge branch, lines 345-350: a zero count gets
the already-empty report, a nonzero count the success report. -/
def purgeReport (rc : Nat) : PurgeMsg :=
  if rc = 0 then PurgeMsg.nothingToDo else PurgeMsg.success rc

/-- `main`'s purge branch, lines 343-350: run `purge`, then select the
report from the returned count. -/
def purgeMain (sh : Store) (ans : String) :
    Except Unit (Store × PurgeMsg) :=
  match purge sh ans with
  | Except.ok (rc, sh') => Except.ok (sh', purgeReport rc)
  | Except.error e => Except.error e

/-- `main`'s delete branch, lines 329-335: for each key (paired here with the
operator's answer to `confirm_delete`), ask for confirmation, and on a yes run
`delete_key`; a `rc = 1` (key not found) only triggers `list_keys` and the
loop continues.  The log records, per key, `some rc` when the delete was
confirmed and attempted and `none` when it was declined. -/
def deleteBatch (sh : Store) :
    List (String × String) → Except Unit (Store × List (String × Option Nat))
  | [] => Except.ok (sh, [])
  | (k, ans) :: rest =>
    match confirm_delete ans with
    | Except.error e => Except.error e
    | Except.ok true =>
      let r := delete_key sh k
      match deleteBatch r.2 rest with
      | Except.ok (sh', log) => Except.ok (sh', (k, some r.1) :: log)
      | Except.error e => Except.error e
    | Except.ok false =>
      match deleteBatch sh rest with
      | Except.ok (sh', log) => Except.ok (sh', (k, none) :: log)
      | Except.error e => Except.error e

/-- One parsed invocation, as dispatched by `main`, lines 316-350. -/
inductive Cmd
  | addC (content key : String) (ev : InputEv)
  | copyC (key : String) (ev : InputEv)
  | deleteC (items : List (String × String))
  | interactiveC (content key ans : String) (ev : InputEv)
  | listC
  | purgeC (ans : String)

/-- `main`, lines 302-350: dispatch one operation over the open shelf.  The
`rc` values the branches compute are never turned into an exit status; `main`
simply falls off the end, so a normal completion is `ok` (process exit 0) and
only an uncaught exception (`error`) terminates the process abnormally. -/
def runMain (sh : Store) (clip : Option String) :
    Cmd → Except Unit (Store × Option String)
  | Cmd.addC content key ev => Except.ok ((add sh content key ev).2.1, clip)
  | Cmd.copyC key ev =>
    match copy sh key ev clip with
    | Except.ok (_, clip') => Except.ok (sh, clip')
    | Except.error _ => Except.error ()
  | Cmd.deleteC items =>
    match deleteBatch sh items with
    | Except.ok (sh', _) => Except.ok (sh', clip)
    | Except.error e => Except.error e
  | Cmd.interactiveC content key ans ev =>
    match get_interactive sh content key ans ev with
    | Except.ok sh' => Except.ok (sh', clip)
    | Except.error e => Except.error e
  | Cmd.listC => Except.ok (sh, clip)
  | Cmd.purgeC ans =>
    match purgeMain sh ans with
    | Except.ok (sh', _) => Except.ok (sh', clip)
    | Except.error e => Except.error e

/-- The process exit status of one invocation: Python exits 0 when `main`
returns normally and 1 on an uncaught exception. -/
def mainExitCode (r : Except Unit (Store × Option String)) : Nat :=
  match r with
  | Except.ok _ => 0
  | Except.error _ => 1

end Mcb

namespace Mcb

/-! Helper lemmas about the shelf operations. -/

theorem shelfGet_shelfSet_self (sh : Store) (k c : String) :
    shelfGet (shelfSet sh k c) k = some c := by
  induction sh with
  | nil => simp [shelfSet, shelfGet]
  | cons p t ih =>
    by_cases hb : p.1 = k
    · simp [shelfSet, hb, shelfGet]
    · simp [shelfSet, hb, shelfGet, ih]

theorem shelfPop_of_get_none (sh : Store) (k : String)
    (h : shelfGet sh k = none) : shelfPop sh k = none := by
  induction sh with
  | nil => rfl
  | cons p t ih =>
    by_cases hb : p.1 = k
    · simp [shelfGet, hb] at h
    · simp [shelfGet, hb] at h
      simp [shelfPop, hb, ih h]

theorem shelfPop_get_other (sh : Store) (k k' : String) (sh' : Store)
    (hpop : shelfPop sh k = some sh') (hne : k' ≠ k) :
    shelfGet sh' k' = shelfGet sh k' := by
  induction sh generalizing sh' with
  | nil => simp [shelfPop] at hpop
  | cons p t ih =>
    by_cases hb : p.1 = k
    · simp [shelfPop, hb] at hpop
      subst hpop
      have hne' : ¬ p.1 = k' := by rw [hb]; exact fun h => hne h.symm
      simp [shelfGet, hne']
    · simp [shelfPop, hb] at hpop
      obtain ⟨t', hpt, rfl⟩ := hpop
      simp [shelfGet, ih t' hpt]

theorem delete_key_of_get_none (sh : Store) (k : String)
    (h : shelfGet sh k = none) : delete_key sh k = (1, sh) := by
  simp [delete_key, shelfPop_of_get_none sh k h]

theorem delete_key_get_other (sh : Store) (k k' : String) (hne : k' ≠ k) :
    shelfGet (delete_key sh k).2 k' = shelfGet sh k' := by
  unfold delete_key
  cases hp : shelfPop sh k with
  | none => simp
  | some sh' => simpa using shelfPop_get_other sh k k' sh' hp hne

theorem delete_key_get_none_pres (sh : Store) (k k' : String)
    (h : shelfGet sh k' = none) :
    shelfGet (delete_key sh k).2 k' = none := by
  by_cases hk : k' = k
  · subst hk
    rw [delete_key_of_get_none sh k' h]
    exact h
  · rw [delete_key_get_other sh k k' hk]
    exact h

theorem purgeLoop_keys (sh : Store) :
    ∀ rc, purgeLoop (shelfKeys sh) sh rc = Except.ok (rc + sh.length, []) := by
  induction sh with
  | nil => intro rc; simp [shelfKeys, purgeLoop]
  | cons p t ih =>
    intro rc
    simp only [shelfKeys, List.map_cons, purgeLoop, shelfPop, beq_self_eq_true,
      if_true]
    have ih' : purgeLoop (shelfKeys t) t (rc + 1) =
        Except.ok (rc + 1 + t.length, []) := ih (rc + 1)
    simp only [shelfKeys] at ih'
    rw [ih']
    congr 1
    simp [List.length_cons]
    omega

end Mcb

namespace Mcb

/-- C1: for every store and every key absent from it, `copy` never writes the
clipboard — but it does not return the NotFound code 1 its docstring promises:
the `filename[key]` on line 107 runs before the `try` block, so the missing
key raises an uncaught `KeyError` and the call crashes with the clipboard
unchanged (the `error` payload is the original clipboard). -/
theorem copy_missing_key_raises (sh : Store) (key : String) (ev : InputEv)
    (clip : Option String) (h : shelfGet sh key = none) :
    copy sh key ev clip = Except.error clip := by
  simp [copy, h]

/-- Witness for C1: on the empty store, `copy` of the key `k` crashes with
the clipboard left as it was. -/
theorem copy_missing_key_raises_witness :
    copy [] "k" (InputEv.line "") none = Except.error none :=
  copy_missing_key_raises [] "k" (InputEv.line "") none rfl

/-- C2: the confirmation read of `confirm_delete` (and the identical inline
read in `purge`) does not treat a blank line as a safe "no": `confirm[0]`
raises an uncaught `IndexError` on empty input.  For non-empty input the
answer is true exactly when the first character, lowercased, is `y`. -/
theorem blank_confirm_input_raises (sh : Store) (s : String) (c : Char)
    (cs : List Char) (hs : s.data = c :: cs) :
    confirm_delete "" = Except.error () ∧
    purge sh "" = Except.error () ∧
    confirm_delete s = Except.ok (c.toLower == 'y') := by
  refine ⟨rfl, rfl, ?_⟩
  simp [confirm_delete, hs]

/-- Witness for C2: the blank line crashes both confirmation reads, and the
answer `Y` is interpreted as yes. -/
theorem blank_confirm_input_raises_witness :
    confirm_delete "" = Except.error () ∧
    purge ([("a", "1")] : Store) "" = Except.error () ∧
    confirm_delete "Y" = Except.ok ('Y'.toLower == 'y') :=
  blank_confirm_input_raises [("a", "1")] "Y" 'Y' [] rfl

/-- C3: when the key holds prior content `c` and the operator interrupts the
overwrite confirmation of `add` (CTRL-C), the store is left untouched and
`add` reports not-success (`False`); `get` on the key still yields `c`. -/
theorem add_declined_preserves_store (sh : Store) (content key c : String)
    (h : shelfGet sh key = some c) :
    (add sh content key InputEv.interrupt).1 = false ∧
    (add sh content key InputEv.interrupt).2.1 = sh ∧
    shelfGet (add sh content key InputEv.interrupt).2.1 key = some c := by
  exact ⟨rfl, rfl, h⟩

/-- Witness for C3: interrupting the overwrite of `k` leaves the old content
in place and reports failure. -/
theorem add_declined_preserves_store_witness :
    (add [("k", "old")] "new" "k" InputEv.interrupt).1 = false ∧
    (add [("k", "old")] "new" "k" InputEv.interrupt).2.1 = [("k", "old")] ∧
    shelfGet (add [("k", "old")] "new" "k" InputEv.interrupt).2.1 "k" =
      some "old" :=
  add_declined_preserves_store [("k", "old")] "new" "k" "old" rfl

/-- C4: the put/get round-trip.  Writing `c` under `k` (the shelf assignment
performed by a confirmed `add`) and then reading `k` (as `copy` does) yields
exactly `c`, for every prior store contents, every key and every content
string including the empty one; a confirmed `copy` then places exactly `c`
on the clipboard with return code 0. -/
theorem put_get_roundtrip (sh : Store) (k c s : String)
    (clip : Option String) :
    shelfGet (shelfSet sh k c) k = some c ∧
    copy (shelfSet sh k c) k (InputEv.line s) clip = Except.ok (0, some c) := by
  have hget := shelfGet_shelfSet_self sh k c
  exact ⟨hget, by simp [copy, hget]⟩

end Mcb

namespace Mcb

/-- Counterexample to C5: the claim says a new key is stored and Ok reported
without any confirmation gate, but the `try: input()` block of `add` runs for
new keys too: with `k` absent from the empty store, an interrupt at that
gate aborts with `rc = False` and no write ever happens. -/
theorem add_new_key_interrupt_counterexample :
    shelfGet ([] : Store) "k" = none ∧
    add [] "new" "k" InputEv.interrupt = (false, [], false) :=
  ⟨rfl, rfl⟩

/-- C5 (amended): `add` prints the overwrite warning only when the key
already exists, but the blocking `input()`/CTRL-C gate applies in every
case.  For a new key no warning is shown; a completed input line performs
the put and reports Ok, while an interrupt aborts with no mutation and
reports not-success. -/
theorem add_gate_applies_to_new_keys (sh : Store) (content key s : String)
    (h : shelfGet sh key = none) :
    add sh content key (InputEv.line s) =
      (true, shelfSet sh key content, false) ∧
    add sh content key InputEv.interrupt = (false, sh, false) := by
  constructor
  · simp [add, h]
  · simp [add, h]

/-- Witness for C5 (amended): adding under the fresh key `k` on the empty
store shows no warning; the completed line writes, the interrupt does not. -/
theorem add_gate_applies_to_new_keys_witness :
    add [] "new" "k" (InputEv.line "x") =
      (true, shelfSet [] "k" "new", false) ∧
    add [] "new" "k" InputEv.interrupt = (false, [], false) :=
  add_gate_applies_to_new_keys [] "new" "k" "x" rfl

/-- Counterexample to C6: the claim says `get_interactive` overwrites only on
an explicit `y` answer, but the code tests the first character against `n`:
the answer `x` — which is not `y` — still overwrites the existing entry. -/
theorem interactive_non_y_overwrite_counterexample :
    get_interactive [("k", "old")] "new" "k" "x" (InputEv.line "") =
      Except.ok [("k", "new")] := by
  simp [get_interactive, shelfGet, shelfSet]

/-- C6 (amended): when the entered key exists, `get_interactive` skips the
overwrite only when the answer's first character, lowercased, is `n`; every
other non-empty answer (not only `y`) performs the overwrite; a blank answer
raises an uncaught `IndexError` (so it does not default to yes and performs
no mutation either). -/
theorem interactive_overwrite_unless_n (sh : Store)
    (content key ans : String) (c : Char) (cs : List Char) (ev : InputEv)
    (hex : (shelfGet sh key).isSome = true) (hans : ans.data = c :: cs) :
    (c.toLower = 'n' → get_interactive sh content key ans ev = Except.ok sh) ∧
    (c.toLower ≠ 'n' →
      get_interactive sh content key ans ev =
        Except.ok (shelfSet sh key content)) ∧
    get_interactive sh content key "" ev = Except.error () := by
  refine ⟨fun hn => ?_, fun hn => ?_, ?_⟩
  · simp [get_interactive, hex, hans, hn]
  · simp [get_interactive, hex, hans, hn]
  · simp [get_interactive, hex]

/-- Witness for C6 (amended): on a store holding `k`, the answer `No` skips
the overwrite, the answer `x` performs it, and a blank answer crashes. -/
theorem interactive_overwrite_unless_n_witness :
    (('N'.toLower = 'n') →
      get_interactive [("k", "old")] "new" "k" "No" (InputEv.line "") =
        Except.ok [("k", "old")]) ∧
    (('N'.toLower ≠ 'n') →
      get_interactive [("k", "old")] "new" "k" "No" (InputEv.line "") =
        Except.ok (shelfSet [("k", "old")] "k" "new")) ∧
    get_interactive [("k", "old")] "new" "k" "" (InputEv.line "") =
      Except.error () :=
  interactive_overwrite_unless_n [("k", "old")] "new" "k" "No" 'N' ['o']
    (InputEv.line "") rfl rfl

/-- C7: a confirmed purge (first character of the answer lowercases to `y`)
pops every key, returns the number of entries and leaves the store empty;
`main` then reports the already-empty message exactly when that count is
zero and the success message with the count otherwise. -/
theorem purge_confirmed_clears (sh : Store) (ans : String) (c : Char)
    (cs : List Char) (hans : ans.data = c :: cs) (hy : c.toLower = 'y') :
    purge sh ans = Except.ok (sh.length, []) ∧
    purgeMain sh ans = Except.ok ([], purgeReport sh.length) ∧
    (sh.length = 0 → purgeReport sh.length = PurgeMsg.nothingToDo) ∧
    (sh.length ≠ 0 → purgeReport sh.length = PurgeMsg.success sh.length) := by
  have hp : purge sh ans = Except.ok (sh.length, []) := by
    simp [purge, hans, hy]
    simpa using purgeLoop_keys sh 0
  refine ⟨hp, ?_, fun h0 => ?_, fun h0 => ?_⟩
  · simp [purgeMain, hp]
  · simp [purgeReport, h0]
  · simp [purgeReport, h0]

/-- Witness for C7: a confirmed purge of a two-entry store returns 2, empties
the store, and `main` reports success with the count. -/
theorem purge_confirmed_clears_witness :
    purge [("a", "1"), ("b", "2")] "y" = Except.ok (2, []) ∧
    purgeMain [("a", "1"), ("b", "2")] "y" =
      Except.ok ([], purgeReport 2) ∧
    ((2 : Nat) = 0 → purgeReport 2 = PurgeMsg.nothingToDo) ∧
    ((2 : Nat) ≠ 0 → purgeReport 2 = PurgeMsg.success 2) :=
  purge_confirmed_clears [("a", "1"), ("b", "2")] "y" 'y' [] rfl rfl

/-- C10: a declined purge (non-empty answer whose first character is not `y`)
returns 0 and leaves the store unchanged, the same count a confirmed purge of
an already-empty store returns, so `main`'s purge branch prints the
already-empty report even though the store still holds its entries. -/
theorem purge_declined_reports_already_empty (sh : Store) (ans : String)
    (c : Char) (cs : List Char) (hans : ans.data = c :: cs)
    (hn : c.toLower ≠ 'y') (hsh : sh ≠ []) :
    purge sh ans = Except.ok (0, sh) ∧
    purgeMain sh ans = Except.ok (sh, PurgeMsg.nothingToDo) ∧
    purge ([] : Store) "y" = Except.ok (0, []) ∧
    sh ≠ [] := by
  have hp : purge sh ans = Except.ok (0, sh) := by
    simp [purge, hans, hn]
  refine ⟨hp, ?_, rfl, hsh⟩
  simp [purgeMain, hp, purgeReport]

/-- Witness for C10: declining the purge of a one-entry store returns 0 and
makes `main` print the already-empty report while the entry is still there. -/
theorem purge_declined_reports_already_empty_witness :
    purge [("a", "1")] "n" = Except.ok (0, [("a", "1")]) ∧
    purgeMain [("a", "1")] "n" =
      Except.ok ([("a", "1")], PurgeMsg.nothingToDo) ∧
    purge ([] : Store) "y" = Except.ok (0, []) ∧
    ([("a", "1")] : Store) ≠ [] :=
  purge_declined_reports_already_empty [("a", "1")] "n" 'n' [] rfl
    (by decide) (by simp)

end Mcb

namespace Mcb

/-- Every confirmation answered with a non-blank line lets the delete batch
run to completion: the whole sequence is processed, and any key absent from
the store is logged with the NotFound code 1 when its deletion was confirmed
(or skipped when declined), never aborting the loop. -/
theorem deleteBatch_processes_all (items : List (String × String)) :
    ∀ sh : Store, (∀ p ∈ items, p.2.data ≠ []) →
    ∃ sh' log, deleteBatch sh items = Except.ok (sh', log) ∧
      log.length = items.length ∧
      (∀ e ∈ log, shelfGet sh e.1 = none → e.2 = some 1 ∨ e.2 = none) := by
  induction items with
  | nil =>
    intro sh _
    exact ⟨sh, [], rfl, rfl, by simp⟩
  | cons item rest ih =>
    intro sh h
    obtain ⟨k, ans⟩ := item
    have hne : ans.data ≠ [] := h (k, ans) (List.mem_cons_self _ _)
    cases hd : ans.data with
    | nil => exact absurd hd hne
    | cons c cs =>
      have hconf : confirm_delete ans = Except.ok (c.toLower == 'y') := by
        simp [confirm_delete, hd]
      have hrest : ∀ p ∈ rest, p.2.data ≠ [] :=
        fun p hp => h p (List.mem_cons_of_mem _ hp)
      by_cases hy : (c.toLower == 'y') = true
      · obtain ⟨sh', log, hb, hlen, hlog⟩ := ih (delete_key sh k).2 hrest
        refine ⟨sh', (k, some (delete_key sh k).1) :: log, ?_, by simp [hlen], ?_⟩
        · rw [hy] at hconf
          simp only [deleteBatch, hconf, hb]
        · intro e he hget
          rcases List.mem_cons.mp he with rfl | hmem
          · left
            have h1 := delete_key_of_get_none sh k hget
            simp [h1]
          · exact hlog e hmem (delete_key_get_none_pres sh k e.1 hget)
      · obtain ⟨sh', log, hb, hlen, hlog⟩ := ih sh hrest
        refine ⟨sh', (k, none) :: log, ?_, by simp [hlen], ?_⟩
        · rw [Bool.not_eq_true] at hy
          rw [hy] at hconf
          simp only [deleteBatch, hconf, hb]
        · intro e he hget
          rcases List.mem_cons.mp he with rfl | hmem
          · right; rfl
          · exact hlog e hmem hget

/-- C8: one missing key never aborts the delete batch — with every
confirmation answered by a non-blank line the whole key sequence is processed
in order, an absent key (when its deletion is confirmed) is merely logged
with the NotFound code 1 — and removing one key has no effect on what any
other key retrieves. -/
theorem delete_batch_missing_key_continues (sh : Store)
    (items : List (String × String)) (h : ∀ p ∈ items, p.2.data ≠ []) :
    (∃ sh' log, deleteBatch sh items = Except.ok (sh', log) ∧
      log.length = items.length ∧
      (∀ e ∈ log, shelfGet sh e.1 = none → e.2 = some 1 ∨ e.2 = none)) ∧
    (∀ k k', k' ≠ k → shelfGet (delete_key sh k).2 k' = shelfGet sh k') := by
  refine ⟨deleteBatch_processes_all items sh h, fun k k' hne => ?_⟩
  exact delete_key_get_other sh k k' hne

/-- Witness for C8: deleting `a`, the missing `c`, then `b` from a two-entry
store processes all three keys. -/
theorem delete_batch_missing_key_continues_witness :
    (∃ sh' log,
      deleteBatch [("a", "1"), ("b", "2")]
          [("a", "y"), ("c", "y"), ("b", "y")] = Except.ok (sh', log) ∧
      log.length = [("a", "y"), ("c", "y"), ("b", "y")].length ∧
      (∀ e ∈ log, shelfGet [("a", "1"), ("b", "2")] e.1 = none →
        e.2 = some 1 ∨ e.2 = none)) ∧
    (∀ k k', k' ≠ k →
      shelfGet (delete_key [("a", "1"), ("b", "2")] k).2 k' =
        shelfGet [("a", "1"), ("b", "2")] k') :=
  delete_batch_missing_key_continues [("a", "1"), ("b", "2")]
    [("a", "y"), ("c", "y"), ("b", "y")] (by decide)

/-- Counterexample to C9: `main` computes the operations' return codes but
never turns them into an exit status, so an `add` aborted at the
confirmation gate — a reported not-success — still ends the process with
exit code 0. -/
theorem main_exit_zero_on_abort_counterexample :
    (add [] "c" "k" InputEv.interrupt).1 = false ∧
    mainExitCode (runMain [] none (Cmd.addC "c" "k" InputEv.interrupt)) = 0 :=
  ⟨rfl, rfl⟩

/-- C9 (amended): the exit status does not reflect the operations' reported
results.  Every invocation that completes without an uncaught exception exits
with code 0, even when the operation reported Aborted (an interrupted `add`),
NotFound (a confirmed delete of a missing key) or a declined purge; only a
crash yields the nonzero status. -/
theorem main_exit_ignores_failures (sh : Store) (clip : Option String)
    (content key : String) (hmiss : shelfGet sh key = none) :
    ((add sh content key InputEv.interrupt).1 = false ∧
      mainExitCode (runMain sh clip (Cmd.addC content key InputEv.interrupt))
        = 0) ∧
    (deleteBatch sh [(key, "y")] = Except.ok (sh, [(key, some 1)]) ∧
      mainExitCode (runMain sh clip (Cmd.deleteC [(key, "y")])) = 0) ∧
    mainExitCode (runMain sh clip (Cmd.purgeC "n")) = 0 := by
  have hdel : deleteBatch sh [(key, "y")] = Except.ok (sh, [(key, some 1)]) := by
    have h1 := delete_key_of_get_none sh key hmiss
    simp only [deleteBatch, confirm_delete]
    simp [h1]
  have hpurge : purge sh "n" = Except.ok (0, sh) := by
    simp [purge]
  refine ⟨⟨rfl, rfl⟩, ⟨hdel, ?_⟩, ?_⟩
  · simp [runMain, hdel, mainExitCode]
  · simp [runMain, purgeMain, hpurge, mainExitCode]

/-- Witness for C9 (amended): on the empty store, the aborted add, the
confirmed delete of the missing `k`, and the declined purge all exit 0. -/
theorem main_exit_ignores_failures_witness :
    ((add [] "c" "k" InputEv.interrupt).1 = false ∧
      mainExitCode (runMain [] none (Cmd.addC "c" "k" InputEv.interrupt))
        = 0) ∧
    (deleteBatch [] [("k", "y")] = Except.ok ([], [("k", some 1)]) ∧
      mainExitCode (runMain [] none (Cmd.deleteC [("k", "y")])) = 0) ∧
    mainExitCode (runMain [] none (Cmd.purgeC "n")) = 0 :=
  main_exit_ignores_failures [] none "c" "k" rfl

end Mcb
